import Mathlib

/-!
Shallow embedding of `main.py` of the DailyStatus repository, together with
proofs of the spec's testable properties.

The program is a Tkinter desktop tool.  Its pure/logical core is:
* `load_config` / `save_config` — JSON preferences file (src/main.py:33-53),
* `list_branches` / `gather_diffs` — GitPython repository reading (src/main.py:56-82),
* `build_template` / `build_full_prompt` — prompt assembly (src/main.py:85-116),
* `generate_with_gemini` — one HTTP POST to the Gemini endpoint (src/main.py:119-131).

External effects (the filesystem, GitPython, the HTTP transport) are passed in
as explicit environment arguments so that every definition is executable.
-/

namespace DailyStatus

/-! ## Calendar dates and local datetimes

`gather_diffs` compares `datetime` values: `since = datetime.combine(date, time.min)`,
`until = datetime.combine(date, time.max)` and `cd = datetime.fromtimestamp(commit.committed_date)`.
A `datetime` without timezone compares lexicographically by calendar date and then by
time of day; we model it as a calendar date plus the microsecond of the day.
`time.min` is 00:00:00.000000 (microsecond 0) and `time.max` is 23:59:59.999999
(microsecond 86399999999).  GitPython's `committed_date` is a whole-second Unix
timestamp, so `fromtimestamp` of it always has a microsecond count that is a
multiple of 1000000; theorems take that as a hypothesis where it matters. -/

/-- A calendar date, as in Python's `datetime.date`. -/
structure Date where
  year : Nat
  month : Nat
  day : Nat
deriving DecidableEq, Repr

/-- Strict lexicographic order on dates, as Python compares `date` values. -/
def Date.lt (a b : Date) : Prop :=
  a.year < b.year ∨ (a.year = b.year ∧ (a.month < b.month ∨ (a.month = b.month ∧ a.day < b.day)))

instance (a b : Date) : Decidable (Date.lt a b) := by
  unfold Date.lt; exact inferInstance

/-- A timezone-naive `datetime.datetime`: a calendar date plus the microsecond of day. -/
structure LDT where
  date : Date
  micro : Nat
deriving DecidableEq, Repr

/-- `datetime` comparison: by date, then by time of day. -/
def LDT.le (a b : LDT) : Prop :=
  Date.lt a.date b.date ∨ (a.date = b.date ∧ a.micro ≤ b.micro)

instance (a b : LDT) : Decidable (LDT.le a b) := by
  unfold LDT.le; exact inferInstance

/-- The filter of `gather_diffs` (src/main.py:69-75): `since <= cd <= until` with
`since = combine(date, time.min)` and `until = combine(date, time.max)`. -/
def inWindow (date : Date) (cd : LDT) : Prop :=
  LDT.le { date := date, micro := 0 } cd ∧ LDT.le cd { date := date, micro := 86399999999 }

instance (date : Date) (cd : LDT) : Decidable (inWindow date cd) := by
  unfold inWindow; exact inferInstance

/-- The window exactly as the spec words it: the inclusive local-time interval
[D 00:00:00, D 23:59:59] (23:59:59 is microsecond 86399000000 of the day). -/
def claimWindow (date : Date) (cd : LDT) : Prop :=
  LDT.le { date := date, micro := 0 } cd ∧ LDT.le cd { date := date, micro := 86399000000 }

instance (date : Date) (cd : LDT) : Decidable (claimWindow date cd) := by
  unfold claimWindow; exact inferInstance

/-! ## Decimal rendering, for `strftime` -/

/-- One decimal digit character. -/
def digitChar (n : Nat) : Char :=
  match n with
  | 0 => '0' | 1 => '1' | 2 => '2' | 3 => '3' | 4 => '4'
  | 5 => '5' | 6 => '6' | 7 => '7' | 8 => '8' | _ => '9'

/-- Decimal digits of `n`, most significant first; fuel-driven so the kernel can evaluate it. -/
def natDigitsAux : Nat → Nat → List Char
  | 0, _ => []
  | fuel + 1, n =>
    if n < 10 then [digitChar (n % 10)]
    else natDigitsAux fuel (n / 10) ++ [digitChar (n % 10)]

/-- Decimal rendering of a natural number. -/
def natRepr (n : Nat) : String :=
  String.mk (natDigitsAux (n + 1) n)

/-- Zero-padding to two digits, as `strftime`'s `%d` and `%m` do. -/
def pad2 (n : Nat) : String :=
  if n < 10 then "0" ++ natRepr n else natRepr n

/-- English month name, as `strftime`'s `%B` renders it (months are 1-based). -/
def monthName (m : Nat) : String :=
  match m with
  | 1 => "January" | 2 => "February" | 3 => "March" | 4 => "April"
  | 5 => "May" | 6 => "June" | 7 => "July" | 8 => "August"
  | 9 => "September" | 10 => "October" | 11 => "November" | 12 => "December"
  | _ => ""

/-- `date.strftime("%B %d, %Y")` (src/main.py:104). -/
def strftime_BdY (d : Date) : String :=
  monthName d.month ++ " " ++ pad2 d.day ++ ", " ++ natRepr d.year

/-- `date.strftime("%d.%m.%Y")` (src/main.py:100). -/
def strftime_dmY (d : Date) : String :=
  pad2 d.day ++ "." ++ pad2 d.month ++ "." ++ natRepr d.year

/-! ## Git model

GitPython is the environment: a repository is a value describing what the
library calls used by `main.py` would return.  `Repo(path)` has three
outcomes: it returns a repository; it raises `InvalidGitRepositoryError`
when the path exists but is not a repository; or it raises
`NoSuchPathError` — a subclass of `OSError`, *not* of
`InvalidGitRepositoryError` — when the path does not exist, whose message
is the path itself.  `main.py` catches only `InvalidGitRepositoryError`
(src/main.py:57-60 and 64-67), so `NoSuchPathError` propagates out of both
`list_branches` and `gather_diffs`. -/

/-- A commit as `gather_diffs` observes it: its hash, the local civil time
`datetime.fromtimestamp(commit.committed_date)`, and the hashes of its parents. -/
structure Commit where
  hexsha : String
  committedLocal : LDT
  parents : List String
deriving DecidableEq, Repr

/-- A repository as observed through the GitPython calls in `main.py`:
branch names (`[h.name for h in repo.heads]`), the active branch's name,
`repo.iter_commits(branch)` in traversal order, and the output of
`repo.git.diff(a, b)` and `repo.git.show(sha)`. -/
structure GitRepo where
  heads : List String
  activeBranchName : String
  commitsOf : String → List Commit
  diffText : String → String → String
  showText : String → String

/-- The outcome of `Repo(path)` for a given path. -/
inductive RepoOpen where
  | repo (r : GitRepo)
  | invalidRepo
  | noSuchPath

/-- An exception escaping the Git helpers: the `RuntimeError` raised at
src/main.py:67, or GitPython's `NoSuchPathError`, whose `str()` is the
offending path. -/
inductive PyError where
  | runtimeError (msg : String)
  | noSuchPathError (path : String)
deriving DecidableEq, Repr

/-- `list_branches` (src/main.py:56-61): `InvalidGitRepositoryError` is caught
and `[]` returned; `NoSuchPathError` (nonexistent path) is not caught and
propagates; otherwise the branch names are returned. -/
def list_branches (fs : String → RepoOpen) (repo_path : String) :
    Except PyError (List String) :=
  match fs repo_path with
  | RepoOpen.noSuchPath => Except.error (PyError.noSuchPathError repo_path)
  | RepoOpen.invalidRepo => Except.ok []
  | RepoOpen.repo repo => Except.ok repo.heads

/-- One entry appended by `gather_diffs` (src/main.py:77-81):
`f"Commit {commit.hexsha[:7]} on {br}:\n{patch}"`, where the patch is
`repo.git.diff(parents[0], commit)` when the commit has a parent and
`repo.git.show(commit)` for a root commit. -/
def mkEntry (repo : GitRepo) (br : String) (commit : Commit) : String :=
  let patch :=
    match commit.parents with
    | p :: _ => repo.diffText p commit.hexsha
    | [] => repo.showText commit.hexsha
  "Commit " ++ String.mk (commit.hexsha.data.take 7) ++ " on " ++ br ++ ":\n" ++ patch

/-- The branches actually traversed (src/main.py:68):
`branches = branches or [repo.active_branch.name]`. -/
def effBranches (repo : GitRepo) (branches : List String) : List String :=
  if branches.isEmpty then [repo.activeBranchName] else branches

/-- `gather_diffs` (src/main.py:63-82).  The filesystem map plays the role of
`Repo(path)`: `InvalidGitRepositoryError` is caught and re-raised as
`RuntimeError("Not a Git repository.")`; `NoSuchPathError` (nonexistent
path) is not caught and propagates. -/
def gather_diffs (fs : String → RepoOpen) (path : String)
    (branches : List String) (date : Date) : Except PyError (List String) :=
  match fs path with
  | RepoOpen.noSuchPath => Except.error (PyError.noSuchPathError path)
  | RepoOpen.invalidRepo => Except.error (PyError.runtimeError "Not a Git repository.")
  | RepoOpen.repo repo =>
    let branches := if branches.isEmpty then [repo.activeBranchName] else branches
    Except.ok (branches.flatMap fun br =>
      (repo.commitsOf br).filterMap fun commit =>
        if inWindow date commit.committedLocal then some (mkEntry repo br commit) else none)

/-! ## Prompt assembly

`build_template` (src/main.py:99-110) renders the header; `build_full_prompt`
(src/main.py:112-116) splices the diffs block into it by splitting the header
on the style's sentence-count directive with Python's `str.split`. -/

/-- The report style; the UI restricts the value to these three
(src/main.py:36 and the combobox at src/main.py:187-190). -/
inductive Style where
  | short
  | medium
  | long
deriving DecidableEq, Repr

/-- The Python value of the style string, as interpolated into the template. -/
def styleName : Style → String
  | Style.short => "short"
  | Style.medium => "medium"
  | Style.long => "long"

/-- `sentence_map` (src/main.py:85-89). -/
def sentence_map : Style → String
  | Style.short => "Use 2–3 sentences."
  | Style.medium => "Use 4–5 sentences."
  | Style.long => "Use 6–8 sentences."

/-- The worked example block `example` (src/main.py:90-97); renamed because
`example` is a Lean keyword. -/
def example_block : String :=
  "09.04.2025:\n" ++
  "Added a logging system - integrated the logger into the login (auth/login/route.ts) " ++
  "and user creation (user/create/route.ts) endpoints, updated audit logs.\n\n" ++
  "10.04.2025:\n" ++
  "Implemented MFA for all users - added /api/mfa endpoints (QR code, TOTP), extended login logic, " ++
  "created migration and userMFA schema, updated middleware."

/-- `build_template` (src/main.py:99-110), literal for literal. -/
def build_template (project : String) (date : Date) (style : Style) : String :=
  "You are an assistant that writes " ++ styleName style ++
    " daily stand-up updates for software engineers.\n" ++
  "Project: " ++ project ++ "\n" ++
  "Date: " ++ strftime_BdY date ++ "\n\n" ++
  "Here are the detailed code diffs for today:\n\n" ++
  sentence_map style ++ "\n\n" ++
  "Generate a status in the exact format of the examples below:\n\n" ++
  example_block ++ "\n\n" ++
  "Now write only the entry for " ++ strftime_dmY date ++ ":"

/-- The part of the header strictly before the style directive (same literal
chunks as `build_template`, regrouped). -/
def headerPre (project : String) (date : Date) (style : Style) : String :=
  "You are an assistant that writes " ++ styleName style ++
    " daily stand-up updates for software engineers.\n" ++
  "Project: " ++ project ++ "\n" ++
  "Date: " ++ strftime_BdY date ++ "\n\n" ++
  "Here are the detailed code diffs for today:\n\n"

/-- The part of the header strictly after the style directive. -/
def headerPost (date : Date) : String :=
  "\n\n" ++
  "Generate a status in the exact format of the examples below:\n\n" ++
  example_block ++ "\n\n" ++
  "Now write only the entry for " ++ strftime_dmY date ++ ":"

/-! ## Python string primitives used by the prompt code

`str.split(sep)` with a non-empty separator splits on the non-overlapping
occurrences of `sep`, scanning left to right; `sep.join(l)` interleaves the
separator; `str.strip()` removes leading and trailing whitespace.  They are
implemented here over `List Char` with explicit fuel so that the kernel can
evaluate them. -/

/-- Worker for Python's `str.split` over character lists.  The fuel only has to
dominate the length of the list; each step consumes at least one character. -/
def splitFuel (sep : List Char) : Nat → List Char → List (List Char)
  | 0, s => [s]
  | fuel + 1, s =>
    match s with
    | [] => [[]]
    | c :: rest =>
      if sep ≠ [] ∧ (c :: rest).take sep.length = sep then
        [] :: splitFuel sep fuel ((c :: rest).drop sep.length)
      else
        match splitFuel sep fuel rest with
        | [] => [[c]]
        | p :: ps => (c :: p) :: ps

/-- Python's `s.split(sep)` for a non-empty separator, over character lists. -/
def splitL (sep s : List Char) : List (List Char) :=
  splitFuel sep s.length s

/-- Python's `s.split(sep)` on strings (the separator is non-empty at every
call site, as in the source). -/
def pysplit (s sep : String) : List String :=
  (splitL sep.data s.data).map String.mk

/-- Python's `sep.join(l)`. -/
def pyJoin (sep : String) : List String → String
  | [] => ""
  | x :: xs => xs.foldl (fun acc y => acc ++ sep ++ y) x

/-- Python whitespace for `str.strip()`. -/
def isPySpace (c : Char) : Bool :=
  c = ' ' || c = '\t' || c = '\n' || c = '\r' || c = '\x0b' || c = '\x0c'

/-- Python's `str.strip()`. -/
def pyStrip (s : String) : String :=
  String.mk (((s.data.dropWhile isPySpace).reverse.dropWhile isPySpace).reverse)

/-- Whether `sub` occurs as a contiguous substring, over character lists:
it checks every suffix for `sub` as a prefix. -/
def containsL (sub : List Char) : List Char → Bool
  | [] => decide (sub = [])
  | c :: rest => decide ((c :: rest).take sub.length = sub) || containsL sub rest

/-- `sub` occurs as a contiguous substring of `s`. -/
def Occurs (sub s : String) : Prop :=
  ∃ x y : String, s = x ++ sub ++ y

/-- `sep` has no non-trivial border: no non-empty proper prefix of `sep` is
also a suffix of `sep`.  (Used to rule out occurrences of the directive that
straddle the start of the directive itself.) -/
def noBorderB (sep : List Char) : Bool :=
  (List.range sep.length).all fun k =>
    decide (k = 0) || !(decide (sep.take k = sep.drop (sep.length - k)))

/-- `build_full_prompt` (src/main.py:112-116).  `parts = header.split(sentence_map[style])`;
the result is `f"{parts[0]}{diffs_block}\n\n{sentence_map[style]}{parts[1]}"`.
Python would raise `IndexError` were there fewer than two parts, but the header
always contains the directive, so at least two parts exist; `List.getD` with a
default is therefore indistinguishable on reachable inputs. -/
def build_full_prompt (diffs : List String) (project : String) (date : Date)
    (style : Style) : String :=
  let header := build_template project date style
  let diffs_block := if diffs.isEmpty then "No code changes today." else pyJoin "\n\n" diffs
  let parts := pysplit header (sentence_map style)
  parts.getD 0 "" ++ diffs_block ++ "\n\n" ++ sentence_map style ++ parts.getD 1 ""

/-- Modelled from the spec: the claim's description of `build_full_prompt` —
"the header produced by `build_template` with the diffs block (or the
no-changes placeholder) spliced in at the position of the style's length
directive, with all header text before the directive and all header text after
the directive preserved unchanged".  The text after the (first) directive is
preserved in full by re-joining the remaining split parts with the directive. -/
def splice_spec (diffs : List String) (project : String) (date : Date)
    (style : Style) : String :=
  let header := build_template project date style
  let diffs_block := if diffs.isEmpty then "No code changes today." else pyJoin "\n\n" diffs
  let s := sentence_map style
  let parts := pysplit header s
  parts.getD 0 "" ++ diffs_block ++ "\n\n" ++ s ++ pyJoin s (parts.drop 1)

/-! ## Gemini API call

`generate_with_gemini` (src/main.py:119-131) issues exactly one POST.  The
HTTP transport is the environment: a function from the request to its outcome.
`resp.raise_for_status()` raises precisely for status codes 400-599;
`resp.json().get("candidates", [])` defaults a missing key to the empty list;
`p.get("text", "")` defaults a missing fragment to the empty string.  The
response body is modelled at the schema the code reads
(`candidates[0]["content"]["parts"]`). -/

/-- The fixed endpoint `GEMINI_URL` (src/main.py:27-30). -/
def GEMINI_URL : String :=
  "https://generativelanguage.googleapis.com/v1beta/models/gemini-2.0-flash:generateContent"

/-- One `parts` element of a candidate; `text` may be absent. -/
structure Part where
  text : Option String
deriving DecidableEq, Repr

/-- The `content` object of a candidate. -/
structure CandContent where
  parts : List Part
deriving DecidableEq, Repr

/-- One element of the `candidates` array. -/
structure Candidate where
  content : CandContent
deriving DecidableEq, Repr

/-- The parsed response body: the `candidates` array (missing key modelled
as the empty list, exactly what `.get("candidates", [])` produces). -/
structure GeminiBody where
  candidates : List Candidate
deriving DecidableEq, Repr

/-- The outcome of `requests.post`: either the transport raises, or a response
with a status code and a parsed JSON body arrives. -/
inductive HttpResult where
  | transportError (msg : String)
  | response (status : Nat) (body : GeminiBody)
deriving DecidableEq, Repr

/-- The single request the function sends: the keyed URL and the prompt text
embedded in the fixed JSON payload `{"contents":[{"parts":[{"text": prompt}]}]}`. -/
structure PostRequest where
  url : String
  promptText : String
deriving DecidableEq, Repr

/-- The ways `generate_with_gemini` raises: a transport exception, the
`HTTPError` of `raise_for_status`, or `RuntimeError("No response from Gemini API.")`. -/
inductive GenError where
  | transport (msg : String)
  | httpStatus (status : Nat)
  | noCandidates
deriving DecidableEq, Repr

/-- The request built at src/main.py:120-126: `f"{GEMINI_URL}?key={api_key}"`
with the prompt in the JSON payload. -/
def geminiRequest (prompt api_key : String) : PostRequest :=
  { url := GEMINI_URL ++ "?key=" ++ api_key, promptText := prompt }

/-- `generate_with_gemini` (src/main.py:119-131). -/
def generate_with_gemini (post : PostRequest → HttpResult)
    (prompt api_key : String) : Except GenError String :=
  match post (geminiRequest prompt api_key) with
  | HttpResult.transportError msg => Except.error (GenError.transport msg)
  | HttpResult.response status body =>
    if 400 ≤ status ∧ status < 600 then Except.error (GenError.httpStatus status)
    else
      match body.candidates with
      | [] => Except.error GenError.noCandidates
      | c :: _ =>
        Except.ok (pyStrip (String.join (c.content.parts.map fun p => p.text.getD "")))

/-! ## Settings store

`load_config` / `save_config` (src/main.py:33-53).  The config is a Python
dict parsed from JSON; it is modelled as an association list of string keys to
JSON values, with Python's `dict` semantics: lookup finds the (unique) key,
`cfg.update(d)` assigns `d`'s pairs in order, replacing in place or appending.
The file on disk is modelled by what `json.loads` does with it: absent,
unparseable (any exception in the `try`), or a parsed dictionary.
`save_config` writes `json.dumps(cfg)`; since JSON serialisation is inverted
by `json.loads`, the saved file is modelled as parsing back to `cfg` (the
success/error message boxes are UI side effects outside the model). -/

/-- A JSON value. -/
inductive JValue where
  | jnull
  | jbool (b : Bool)
  | jnum (n : Int)
  | jstr (s : String)
  | jarr (xs : List JValue)
  | jobj (fields : List (String × JValue))

/-- A Python dict with string keys, in insertion order. -/
def Dict := List (String × JValue)

/-- Dict lookup: the value at the (unique) matching key. -/
def dlookup (k : String) : Dict → Option JValue
  | [] => none
  | (k0, v0) :: rest => if k0 = k then some v0 else dlookup k rest

/-- Python's `d[k] = v`: replace in place if the key exists, else append. -/
def dictSet : Dict → String → JValue → Dict
  | [], k, v => [(k, v)]
  | (k0, v0) :: rest, k, v =>
    if k0 = k then (k0, v) :: rest else (k0, v0) :: dictSet rest k v

/-- Python's `base.update(upd)`: assign each pair of `upd` in order. -/
def dictUpdate (base upd : Dict) : Dict :=
  upd.foldl (fun d kv => dictSet d kv.1 kv.2) base

/-- The key is present. -/
def hasKey (d : Dict) (k : String) : Prop :=
  (dlookup k d).isSome

instance (d : Dict) (k : String) : Decidable (hasKey d k) := by
  unfold hasKey; exact inferInstance

/-- The dict's keys are pairwise distinct (always true of a Python dict). -/
def keysNodup (d : Dict) : Prop :=
  (d.map Prod.fst).Nodup

instance (d : Dict) : Decidable (keysNodup d) := by
  unfold keysNodup; exact inferInstance

/-- Equality of dicts as Python's `==` sees it: the same value at every key. -/
def dictEq (a b : Dict) : Prop :=
  ∀ k, dlookup k a = dlookup k b

/-- The five keys of the default record (src/main.py:34-40). -/
def defaultKeys : List String :=
  ["project_folder", "report_style", "branches", "api_key", "prompt_template"]

/-- The default record (src/main.py:34-40); `str(Path.cwd())` is the
environment argument `cwd`. -/
def defaultConfig (cwd : String) : Dict :=
  [("project_folder", JValue.jstr cwd),
   ("report_style", JValue.jstr "short"),
   ("branches", JValue.jarr []),
   ("api_key", JValue.jstr ""),
   ("prompt_template", JValue.jstr "")]

/-- The config file as `load_config` can find it: missing, raising on
parse (any exception in the `try`), or parsed to a dictionary. -/
inductive FileState where
  | absent
  | corrupt
  | parsed (d : Dict)

/-- `load_config` (src/main.py:33-46).  Returns the record together with the
warning message shown by `messagebox.showwarning`, if any. -/
def load_config (cwd : String) (file : FileState) : Dict × Option String :=
  match file with
  | FileState.absent => (defaultConfig cwd, none)
  | FileState.corrupt => (defaultConfig cwd, some "Config corrupted — using defaults.")
  | FileState.parsed d => (dictUpdate (defaultConfig cwd) d, none)

/-- `save_config` (src/main.py:48-53): the file afterwards holds
`json.dumps(cfg)`, which parses back to `cfg`. -/
def save_config (cfg : Dict) : FileState :=
  FileState.parsed cfg

/-! ## Concrete sample environments, used by witnesses and counterexamples -/

/-- The date 2025-04-09 used by the spec's end-to-end scenario. -/
def d0 : Date := { year := 2025, month := 4, day := 9 }

/-- A root commit (no parents) committed at 2025-04-09 01:00:00 local time. -/
def rootCommit : Commit :=
  { hexsha := "abc1234def", committedLocal := { date := d0, micro := 3600000000 }, parents := [] }

/-- A child commit of `rootCommit`, committed at 2025-04-09 02:00:00 local time. -/
def childCommit : Commit :=
  { hexsha := "feed5678aa",
    committedLocal := { date := d0, micro := 7200000000 },
    parents := ["abc1234def"] }

/-- A commit outside the target day (2025-04-10 00:00:00). -/
def lateCommit : Commit :=
  { hexsha := "0ff1ce0000",
    committedLocal := { date := { year := 2025, month := 4, day := 10 }, micro := 0 },
    parents := ["feed5678aa"] }

/-- A small repository: one branch `main`, three commits, newest first as
`iter_commits` yields them. -/
def sampleRepo : GitRepo :=
  { heads := ["main"],
    activeBranchName := "main",
    commitsOf := fun br => if br = "main" then [lateCommit, childCommit, rootCommit] else [],
    diffText := fun a b => "diff " ++ a ++ ".." ++ b,
    showText := fun sha => "full content of " ++ sha }

/-- A filesystem with `sampleRepo` at path `/repo` and no other path existing. -/
def sampleFS : String → RepoOpen :=
  fun p => if p = "/repo" then RepoOpen.repo sampleRepo else RepoOpen.noSuchPath

/-- A filesystem on which every path exists but none is a repository: `Repo`
raises `InvalidGitRepositoryError` everywhere. -/
def invFS : String → RepoOpen :=
  fun _ => RepoOpen.invalidRepo

/-- A filesystem on which no path exists: `Repo` raises `NoSuchPathError`
everywhere. -/
def noPathFS : String → RepoOpen :=
  fun _ => RepoOpen.noSuchPath

/-- A repository in which the same commit is reachable from both branches. -/
def dupRepo : GitRepo :=
  { heads := ["dev", "main"],
    activeBranchName := "main",
    commitsOf := fun _ => [rootCommit],
    diffText := fun a b => "diff " ++ a ++ ".." ++ b,
    showText := fun sha => "full content of " ++ sha }

/-- A filesystem holding `dupRepo` everywhere. -/
def dupFS : String → RepoOpen :=
  fun _ => RepoOpen.repo dupRepo

/-- A transport whose response carries one candidate whose single text fragment
has leading and trailing whitespace. -/
def paddedPost : PostRequest → HttpResult :=
  fun _ => HttpResult.response 200
    { candidates := [{ content := { parts := [{ text := some " Did X. " }] } }] }

/-- The spec scenario's transport: HTTP 200 with body
`{"candidates":[{"content":{"parts":[{"text":"Did X."}]}}]}`. -/
def scenarioPost : PostRequest → HttpResult :=
  fun _ => HttpResult.response 200
    { candidates := [{ content := { parts := [{ text := some "Did X." }] } }] }

/-- A sample preferences record holding all five keys plus the `date` key the
UI adds on save (src/main.py:230-239). -/
def cfg0 : Dict :=
  [("project_folder", JValue.jstr "/repo"),
   ("report_style", JValue.jstr "long"),
   ("branches", JValue.jarr [JValue.jstr "main"]),
   ("api_key", JValue.jstr "k-123"),
   ("prompt_template", JValue.jstr "my prompt"),
   ("date", JValue.jstr "2025-04-09")]

/-- A parsed config file holding one known and one unknown key. -/
def partialFile : Dict :=
  [("api_key", JValue.jstr "secret"), ("color_scheme", JValue.jstr "dark")]

/-- A project name that is exactly the short style's length directive; it makes
the header contain the directive twice, so `header.split(...)` produces three
parts and `parts[2]` is silently dropped. -/
def advProject : String := "Use 2–3 sentences."

/-- A project name containing the short style's length directive with text on
both sides; the splice cuts it apart, so the full prompt no longer contains it. -/
def advProject2 : String := "AUse 2–3 sentences.B"

end DailyStatus

namespace DailyStatus

/-! ## Helper lemmas -/

theorem effBranches_empty (repo : GitRepo) : effBranches repo [] = [repo.activeBranchName] := rfl

/-- Since commit timestamps are whole seconds, the code's filter (up to
`time.max`, 23:59:59.999999) selects exactly the commits in the spec's
inclusive window up to 23:59:59. -/
theorem window_iff (date : Date) (cd : LDT) (h : cd.micro % 1000000 = 0) :
    inWindow date cd ↔ claimWindow date cd := by
  obtain ⟨k, hk⟩ := Nat.dvd_of_mod_eq_zero h
  unfold inWindow claimWindow LDT.le
  dsimp only
  constructor
  · rintro ⟨h1, h2⟩
    refine ⟨h1, ?_⟩
    rcases h2 with hlt | ⟨he, hm⟩
    · exact Or.inl hlt
    · exact Or.inr ⟨he, by omega⟩
  · rintro ⟨h1, h2⟩
    refine ⟨h1, ?_⟩
    rcases h2 with hlt | ⟨he, hm⟩
    · exact Or.inl hlt
    · exact Or.inr ⟨he, by omega⟩

/-- A `filterMap` guarded by a decidable test is a `filter` followed by a `map`. -/
theorem filterMap_if_eq_map_filter {α β : Type} (p : α → Prop) [DecidablePred p]
    (f : α → β) (l : List α) :
    (l.filterMap fun a => if p a then some (f a) else none) =
      (l.filter fun a => decide (p a)).map f := by
  induction l with
  | nil => rfl
  | cons a t ih =>
    by_cases h : p a
    · simp [List.filterMap_cons, List.filter_cons, h, ih]
    · simp [List.filterMap_cons, List.filter_cons, h, ih]

/-! ## C1: commits in the day's window, drawn from exactly the requested branches -/

/-- C1: for every target date `D` and branch list `B`, `gather_diffs` returns
diff entries only for commits whose commit timestamp lies within the inclusive
local-time window [`D` 00:00:00, `D` 23:59:59], and it draws commits from
exactly the branches in `B`, or from the repository's current (active) branch
when `B` is empty.  (Soundness: every entry comes from such a commit on such a
branch; completeness: every such commit on such a branch contributes its entry.
Commit timestamps are whole seconds, taken as a hypothesis.) -/
theorem gather_diffs_window_and_branches (fs : String → RepoOpen)
    (path : String) (B : List String) (D : Date) (repo : GitRepo)
    (hfs : fs path = RepoOpen.repo repo)
    (hsec : ∀ br, ∀ c ∈ repo.commitsOf br, c.committedLocal.micro % 1000000 = 0) :
    ∃ ds, gather_diffs fs path B D = Except.ok ds ∧
      (∀ e ∈ ds, ∃ br c, br ∈ effBranches repo B ∧ c ∈ repo.commitsOf br ∧
        claimWindow D c.committedLocal ∧ e = mkEntry repo br c) ∧
      (∀ br ∈ effBranches repo B, ∀ c ∈ repo.commitsOf br,
        claimWindow D c.committedLocal → mkEntry repo br c ∈ ds) := by
  refine ⟨(effBranches repo B).flatMap fun br =>
      (repo.commitsOf br).filterMap fun commit =>
        if inWindow D commit.committedLocal then some (mkEntry repo br commit) else none,
      ?_, ?_, ?_⟩
  · unfold gather_diffs effBranches
    rw [hfs]
  · intro e he
    rw [List.mem_flatMap] at he
    obtain ⟨br, hbr, he⟩ := he
    rw [List.mem_filterMap] at he
    obtain ⟨c, hc, hif⟩ := he
    by_cases hw : inWindow D c.committedLocal
    · rw [if_pos hw] at hif
      obtain rfl : mkEntry repo br c = e := Option.some.inj hif
      exact ⟨br, c, hbr, hc, (window_iff D c.committedLocal (hsec br c hc)).mp hw, rfl⟩
    · rw [if_neg hw] at hif
      cases hif
  · intro br hbr c hc hw
    rw [List.mem_flatMap]
    exact ⟨br, hbr, List.mem_filterMap.mpr ⟨c, hc, by
      rw [if_pos ((window_iff D c.committedLocal (hsec br c hc)).mpr hw)]⟩⟩

/-- Witness for C1 at the sample repository. -/
theorem gather_diffs_window_and_branches_witness :
    ∃ ds, gather_diffs sampleFS "/repo" [] d0 = Except.ok ds ∧
      (∀ e ∈ ds, ∃ br c, br ∈ effBranches sampleRepo [] ∧ c ∈ sampleRepo.commitsOf br ∧
        claimWindow d0 c.committedLocal ∧ e = mkEntry sampleRepo br c) ∧
      (∀ br ∈ effBranches sampleRepo [], ∀ c ∈ sampleRepo.commitsOf br,
        claimWindow d0 c.committedLocal → mkEntry sampleRepo br c ∈ ds) :=
  gather_diffs_window_and_branches sampleFS "/repo" [] d0 sampleRepo rfl
    (by
      intro br c hc
      by_cases hbr : br = "main"
      · simp only [sampleRepo, hbr, if_pos] at hc
        simp only [List.mem_cons, List.not_mem_nil, or_false] at hc
        rcases hc with rfl | rfl | rfl <;> decide
      · simp [sampleRepo, hbr] at hc)

/-! ## C6: a parented commit contributes its first-parent diff; a root commit
its full content -/

/-- C6: for every commit selected by `gather_diffs`, a commit with at least one
parent contributes the diff against its first parent, and a root commit (no
parents) contributes the commit's full content (`git show`) rather than a
differential patch. -/
theorem gather_diffs_parent_patch (fs : String → RepoOpen)
    (path : String) (B : List String) (D : Date) (repo : GitRepo)
    (hfs : fs path = RepoOpen.repo repo) :
    ∃ ds, gather_diffs fs path B D = Except.ok ds ∧
      ∀ br ∈ effBranches repo B, ∀ c ∈ repo.commitsOf br, inWindow D c.committedLocal →
        (c.parents = [] →
          ("Commit " ++ String.mk (c.hexsha.data.take 7) ++ " on " ++ br ++ ":\n" ++
            repo.showText c.hexsha) ∈ ds) ∧
        (∀ p ps, c.parents = p :: ps →
          ("Commit " ++ String.mk (c.hexsha.data.take 7) ++ " on " ++ br ++ ":\n" ++
            repo.diffText p c.hexsha) ∈ ds) := by
  refine ⟨(effBranches repo B).flatMap fun br =>
      (repo.commitsOf br).filterMap fun commit =>
        if inWindow D commit.committedLocal then some (mkEntry repo br commit) else none,
      ?_, ?_⟩
  · unfold gather_diffs effBranches
    rw [hfs]
  · intro br hbr c hc hw
    have hmem : mkEntry repo br c ∈ (effBranches repo B).flatMap fun br =>
        (repo.commitsOf br).filterMap fun commit =>
          if inWindow D commit.committedLocal then some (mkEntry repo br commit) else none := by
      rw [List.mem_flatMap]
      exact ⟨br, hbr, List.mem_filterMap.mpr ⟨c, hc, by rw [if_pos hw]⟩⟩
    constructor
    · intro hp
      have : mkEntry repo br c =
          "Commit " ++ String.mk (c.hexsha.data.take 7) ++ " on " ++ br ++ ":\n" ++
            repo.showText c.hexsha := by
        unfold mkEntry
        rw [hp]
      rw [← this]
      exact hmem
    · intro p ps hp
      have : mkEntry repo br c =
          "Commit " ++ String.mk (c.hexsha.data.take 7) ++ " on " ++ br ++ ":\n" ++
            repo.diffText p c.hexsha := by
        unfold mkEntry
        rw [hp]
      rw [← this]
      exact hmem

/-- Witness for C6: in the sample repository, the root commit contributes its
full `git show` content and the child commit its first-parent diff. -/
theorem gather_diffs_parent_patch_witness :
    ∃ ds, gather_diffs sampleFS "/repo" [] d0 = Except.ok ds ∧
      ∀ br ∈ effBranches sampleRepo [], ∀ c ∈ sampleRepo.commitsOf br,
        inWindow d0 c.committedLocal →
        (c.parents = [] →
          ("Commit " ++ String.mk (c.hexsha.data.take 7) ++ " on " ++ br ++ ":\n" ++
            sampleRepo.showText c.hexsha) ∈ ds) ∧
        (∀ p ps, c.parents = p :: ps →
          ("Commit " ++ String.mk (c.hexsha.data.take 7) ++ " on " ++ br ++ ":\n" ++
            sampleRepo.diffText p c.hexsha) ∈ ds) :=
  gather_diffs_parent_patch sampleFS "/repo" [] d0 sampleRepo rfl

/-! ## C7: how an invalid repository path fails -/

/-- C7, amended: for every existing path that is not a valid repository
(`Repo(path)` raises `InvalidGitRepositoryError`), `gather_diffs` fails with
the distinct error "Not a Git repository." and never returns a result, so
generation is aborted; a nonexistent path instead fails with the propagated
`NoSuchPathError`, whose message is the path, and likewise never returns a
result. -/
theorem gather_diffs_not_git_repo (fs : String → RepoOpen) (path : String)
    (branches : List String) (date : Date) :
    (fs path = RepoOpen.invalidRepo →
      gather_diffs fs path branches date =
        Except.error (PyError.runtimeError "Not a Git repository.") ∧
      ∀ ds, gather_diffs fs path branches date ≠ Except.ok ds) ∧
    (fs path = RepoOpen.noSuchPath →
      gather_diffs fs path branches date =
        Except.error (PyError.noSuchPathError path) ∧
      ∀ ds, gather_diffs fs path branches date ≠ Except.ok ds) := by
  constructor
  · intro h
    have he : gather_diffs fs path branches date =
        Except.error (PyError.runtimeError "Not a Git repository.") := by
      unfold gather_diffs
      rw [h]
    refine ⟨he, fun ds hds => ?_⟩
    rw [he] at hds
    cases hds
  · intro h
    have he : gather_diffs fs path branches date =
        Except.error (PyError.noSuchPathError path) := by
      unfold gather_diffs
      rw [h]
    refine ⟨he, fun ds hds => ?_⟩
    rw [he] at hds
    cases hds

/-- Witness for C7: an existing non-repository path yields the distinct
message, a nonexistent path yields the propagated path error. -/
theorem gather_diffs_not_git_repo_witness :
    gather_diffs invFS "/notrepo" ["main"] d0 =
      Except.error (PyError.runtimeError "Not a Git repository.") ∧
    gather_diffs noPathFS "/missing" ["main"] d0 =
      Except.error (PyError.noSuchPathError "/missing") :=
  ⟨((gather_diffs_not_git_repo invFS "/notrepo" ["main"] d0).1 rfl).1,
   ((gather_diffs_not_git_repo noPathFS "/missing" ["main"] d0).2 rfl).1⟩

/-- Counterexample to C7 as stated: a nonexistent path is not a valid
repository, yet `gather_diffs` does not fail with "Not a Git repository." —
GitPython's `NoSuchPathError` is not caught by the
`except InvalidGitRepositoryError` at src/main.py:64-67 and propagates with
the path as its message. -/
theorem gather_diffs_not_git_repo_counterexample :
    gather_diffs noPathFS "/missing" ["main"] d0 =
      Except.error (PyError.noSuchPathError "/missing") ∧
    gather_diffs noPathFS "/missing" ["main"] d0 ≠
      Except.error (PyError.runtimeError "Not a Git repository.") := by
  constructor
  · rfl
  · intro h
    exact absurd (Except.error.inj h) (by decide)

/-! ## C9: when branch listing fails on an invalid path -/

/-- C9, amended: for every existing path that is not a valid repository
(`InvalidGitRepositoryError`), `list_branches` returns the empty list instead
of raising, while `gather_diffs` on the same path fails with "Not a Git
repository."; on a nonexistent path, however, both raise the uncaught
`NoSuchPathError`. -/
theorem list_branches_invalid_path_empty (fs : String → RepoOpen) (path : String) :
    (fs path = RepoOpen.invalidRepo →
      list_branches fs path = Except.ok [] ∧
      ∀ branches date, gather_diffs fs path branches date =
        Except.error (PyError.runtimeError "Not a Git repository.")) ∧
    (fs path = RepoOpen.noSuchPath →
      list_branches fs path = Except.error (PyError.noSuchPathError path) ∧
      ∀ branches date, gather_diffs fs path branches date =
        Except.error (PyError.noSuchPathError path)) := by
  constructor
  · intro h
    constructor
    · unfold list_branches
      rw [h]
    · intro branches date
      unfold gather_diffs
      rw [h]
  · intro h
    constructor
    · unfold list_branches
      rw [h]
    · intro branches date
      unfold gather_diffs
      rw [h]

/-- Witness for C9 on the two invalid-path filesystems. -/
theorem list_branches_invalid_path_empty_witness :
    list_branches invFS "/notrepo" = Except.ok [] ∧
    gather_diffs invFS "/notrepo" ["main"] d0 =
      Except.error (PyError.runtimeError "Not a Git repository.") ∧
    list_branches noPathFS "/missing" = Except.error (PyError.noSuchPathError "/missing") :=
  ⟨((list_branches_invalid_path_empty invFS "/notrepo").1 rfl).1,
   ((list_branches_invalid_path_empty invFS "/notrepo").1 rfl).2 ["main"] d0,
   ((list_branches_invalid_path_empty noPathFS "/missing").2 rfl).1⟩

/-- Counterexample to C9 as stated: on a nonexistent path — which is not a
valid repository — `list_branches` raises `NoSuchPathError` instead of
returning the empty list, because src/main.py:57-60 catches only
`InvalidGitRepositoryError`. -/
theorem list_branches_invalid_path_counterexample :
    list_branches noPathFS "/missing" = Except.error (PyError.noSuchPathError "/missing") ∧
    ∀ bs, list_branches noPathFS "/missing" ≠ Except.ok bs := by
  refine ⟨rfl, fun bs h => ?_⟩
  cases h

/-! ## C8: traversal order, and duplicates across branches -/

/-- C8: `gather_diffs` returns entries in each branch's commit-traversal order
with branches processed in the caller-supplied order (the result is exactly the
per-branch filtered lists, concatenated in branch order); and a commit
reachable from several requested branches appears once per branch, with no
deduplication — in `dupRepo` the same `rootCommit` is listed under both
requested branches. -/
theorem gather_diffs_order_and_duplicates :
    (∀ (fs : String → RepoOpen) (path : String) (B : List String) (D : Date)
      (repo : GitRepo), fs path = RepoOpen.repo repo →
      gather_diffs fs path B D = Except.ok ((effBranches repo B).flatMap fun br =>
        ((repo.commitsOf br).filter fun c => decide (inWindow D c.committedLocal)).map
          (mkEntry repo br))) ∧
    gather_diffs dupFS "/repo" ["dev", "main"] d0 =
      Except.ok [mkEntry dupRepo "dev" rootCommit, mkEntry dupRepo "main" rootCommit] := by
  constructor
  · intro fs path B D repo hfs
    unfold gather_diffs effBranches
    rw [hfs]
    have hbody : ∀ br : String,
        ((repo.commitsOf br).filterMap fun commit =>
          if inWindow D commit.committedLocal then some (mkEntry repo br commit) else none) =
        ((repo.commitsOf br).filter fun c => decide (inWindow D c.committedLocal)).map
          (mkEntry repo br) := fun br =>
      filterMap_if_eq_map_filter (fun c => inWindow D c.committedLocal) (mkEntry repo br) _
    simp only [hbody]
  · rfl

/-- Witness for C8's universal part at the sample repository. -/
theorem gather_diffs_order_and_duplicates_witness :
    gather_diffs sampleFS "/repo" [] d0 =
      Except.ok ((effBranches sampleRepo []).flatMap fun br =>
        ((sampleRepo.commitsOf br).filter fun c => decide (inWindow d0 c.committedLocal)).map
          (mkEntry sampleRepo br)) :=
  gather_diffs_order_and_duplicates.1 sampleFS "/repo" [] d0 sampleRepo rfl

/-! ## C2: when the Gemini call raises, and what it returns -/

/-- C2, amended: `generate_with_gemini` raises exactly when the transport
fails, when the HTTP status is non-success (400-599, what `raise_for_status`
raises for), or when the response has no candidates; otherwise it returns the
concatenation of all text fragments of the first candidate's content parts
**stripped of leading and trailing whitespace** (the `.strip()` at
src/main.py:131, which the unamended claim omits). -/
theorem generate_with_gemini_error_conditions (post : PostRequest → HttpResult)
    (prompt api_key : String) :
    ((∃ e, generate_with_gemini post prompt api_key = Except.error e) ↔
      ((∃ m, post (geminiRequest prompt api_key) = HttpResult.transportError m) ∨
       (∃ s b, post (geminiRequest prompt api_key) = HttpResult.response s b ∧
          400 ≤ s ∧ s < 600) ∨
       (∃ s b, post (geminiRequest prompt api_key) = HttpResult.response s b ∧
          ¬(400 ≤ s ∧ s < 600) ∧ b.candidates = []))) ∧
    (∀ s b c rest, post (geminiRequest prompt api_key) = HttpResult.response s b →
      ¬(400 ≤ s ∧ s < 600) → b.candidates = c :: rest →
      generate_with_gemini post prompt api_key =
        Except.ok (pyStrip (String.join (c.content.parts.map fun p => p.text.getD "")))) := by
  constructor
  · constructor
    · rintro ⟨e, he⟩
      unfold generate_with_gemini at he
      cases hr : post (geminiRequest prompt api_key) with
      | transportError m => exact Or.inl ⟨m, rfl⟩
      | response s b =>
        rw [hr] at he
        dsimp only at he
        by_cases hs : 400 ≤ s ∧ s < 600
        · exact Or.inr (Or.inl ⟨s, b, rfl, hs.1, hs.2⟩)
        · rw [if_neg hs] at he
          cases hc : b.candidates with
          | nil => exact Or.inr (Or.inr ⟨s, b, rfl, hs, hc⟩)
          | cons c rest =>
            rw [hc] at he
            cases he
    · rintro (⟨m, hm⟩ | ⟨s, b, hr, h1, h2⟩ | ⟨s, b, hr, hs, hc⟩)
      · exact ⟨GenError.transport m, by unfold generate_with_gemini; rw [hm]⟩
      · exact ⟨GenError.httpStatus s, by
          unfold generate_with_gemini
          rw [hr]
          dsimp only
          rw [if_pos ⟨h1, h2⟩]⟩
      · exact ⟨GenError.noCandidates, by
          unfold generate_with_gemini
          rw [hr]
          dsimp only
          rw [if_neg hs, hc]⟩
  · intro s b c rest hr hs hc
    unfold generate_with_gemini
    rw [hr]
    dsimp only
    rw [if_neg hs, hc]

/-- Witness for C2 at the spec's end-to-end scenario: a mocked HTTP 200 with
body `{"candidates":[{"content":{"parts":[{"text":"Did X."}]}}]}` yields
exactly "Did X.". -/
theorem generate_with_gemini_error_conditions_witness :
    generate_with_gemini scenarioPost "prompt" "key" = Except.ok "Did X." :=
  (generate_with_gemini_error_conditions scenarioPost "prompt" "key").2
    200 { candidates := [{ content := { parts := [{ text := some "Did X." }] } }] }
    { content := { parts := [{ text := some "Did X." }] } } [] rfl (by decide) rfl

/-- Counterexample to C2 as stated: with a text fragment carrying surrounding
whitespace, the function does not return the plain concatenation of the first
candidate's text fragments — it strips it. -/
theorem generate_with_gemini_strip_counterexample :
    generate_with_gemini paddedPost "prompt" "key" ≠
      Except.ok (String.join ((([({ text := some " Did X. " } : Part)]) :
        List Part).map fun p => p.text.getD "")) := by
  intro h
  exact absurd (Except.ok.inj h) (by decide)

/-! ## Dictionary lemmas for the settings store -/

theorem dlookup_dictSet (d : Dict) (k k' : String) (v : JValue) :
    dlookup k (dictSet d k' v) = if k' = k then some v else dlookup k d := by
  induction d with
  | nil =>
    show dlookup k [(k', v)] = _
    unfold dlookup
    rfl
  | cons kv rest ih =>
    obtain ⟨k0, v0⟩ := kv
    show dlookup k (if k0 = k' then (k0, v) :: rest else (k0, v0) :: dictSet rest k' v) = _
    by_cases h0 : k0 = k'
    · subst h0
      rw [if_pos rfl]
      show (if k0 = k then some v else dlookup k rest) = _
      by_cases hk : k0 = k
      · rw [if_pos hk, if_pos hk]
      · rw [if_neg hk, if_neg hk]
        show _ = dlookup k ((k0, v0) :: rest)
        show _ = if k0 = k then some v0 else dlookup k rest
        rw [if_neg hk]
    · rw [if_neg h0]
      show (if k0 = k then some v0 else dlookup k (dictSet rest k' v)) = _
      by_cases hk : k0 = k
      · have hk' : ¬(k' = k) := fun he => h0 (hk.trans he.symm)
        rw [if_pos hk, if_neg hk']
        show _ = if k0 = k then some v0 else dlookup k rest
        rw [if_pos hk]
      · rw [if_neg hk, ih]
        by_cases hk' : k' = k
        · rw [if_pos hk', if_pos hk']
        · rw [if_neg hk', if_neg hk']
          show _ = if k0 = k then some v0 else dlookup k rest
          rw [if_neg hk]

theorem dlookup_eq_none_of_not_mem_keys (d : Dict) (k : String)
    (h : k ∉ d.map Prod.fst) : dlookup k d = none := by
  induction d with
  | nil => rfl
  | cons kv rest ih =>
    obtain ⟨k0, v0⟩ := kv
    simp only [List.map_cons, List.mem_cons, not_or] at h
    show (if k0 = k then some v0 else dlookup k rest) = none
    rw [if_neg (fun he => h.1 he.symm)]
    exact ih h.2

theorem dlookup_dictUpdate (upd : Dict) : ∀ (base : Dict) (k : String), keysNodup upd →
    dlookup k (dictUpdate base upd) = (dlookup k upd).or (dlookup k base) := by
  induction upd with
  | nil =>
    intro base k _
    show dlookup k base = (none : Option JValue).or (dlookup k base)
    rw [Option.none_or]
  | cons kv rest ih =>
    intro base k hnd
    obtain ⟨k0, v0⟩ := kv
    have hnd0 : k0 ∉ rest.map Prod.fst ∧ keysNodup rest := by
      unfold keysNodup at hnd ⊢
      rw [List.map_cons, List.nodup_cons] at hnd
      exact hnd
    show dlookup k (dictUpdate (dictSet base k0 v0) rest) = _
    rw [ih (dictSet base k0 v0) k hnd0.2, dlookup_dictSet]
    show _ = (if k0 = k then some v0 else dlookup k rest).or (dlookup k base)
    by_cases hk : k0 = k
    · rw [if_pos hk, if_pos hk]
      subst hk
      rw [dlookup_eq_none_of_not_mem_keys rest k0 hnd0.1, Option.none_or]
      rfl
    · rw [if_neg hk, if_neg hk]

theorem hasKey_dictSet (d : Dict) (k k' : String) (v : JValue) (h : hasKey d k) :
    hasKey (dictSet d k' v) k := by
  unfold hasKey at h ⊢
  rw [dlookup_dictSet]
  by_cases he : k' = k
  · rw [if_pos he]
    rfl
  · rw [if_neg he]
    exact h

theorem hasKey_dictUpdate (upd : Dict) : ∀ (base : Dict) (k : String),
    hasKey base k → hasKey (dictUpdate base upd) k := by
  induction upd with
  | nil => exact fun base k h => h
  | cons kv rest ih =>
    intro base k h
    exact ih (dictSet base kv.1 kv.2) k (hasKey_dictSet base k kv.1 kv.2 h)

theorem dlookup_defaultConfig_of_not_mem (cwd k : String) (h : k ∉ defaultKeys) :
    dlookup k (defaultConfig cwd) = none := by
  simp only [defaultKeys, List.mem_cons, List.not_mem_nil, or_false, not_or] at h
  obtain ⟨h1, h2, h3, h4, h5⟩ := h
  simp [defaultConfig, dlookup, Ne.symm h1, Ne.symm h2, Ne.symm h3, Ne.symm h4, Ne.symm h5]

theorem hasKey_defaultConfig (cwd : String) : ∀ k ∈ defaultKeys, hasKey (defaultConfig cwd) k := by
  intro k hk
  simp only [defaultKeys, List.mem_cons, List.not_mem_nil, or_false] at hk
  rcases hk with rfl | rfl | rfl | rfl | rfl <;> rfl

/-! ## C3: settings round-trip, and recovery from a corrupted file -/

/-- C3: saving a preferences record (a dict carrying at least the five default
keys, keys distinct as in every Python dict) and reloading yields a record
equal, as Python `==` compares dicts, to the saved one, with no warning; and a
corrupted (unparseable) file on reload yields exactly the default record plus
the warning "Config corrupted — using defaults.". -/
theorem config_round_trip :
    (∀ (cwd : String) (cfg : Dict), (∀ k ∈ defaultKeys, hasKey cfg k) → keysNodup cfg →
      dictEq (load_config cwd (save_config cfg)).1 cfg ∧
      (load_config cwd (save_config cfg)).2 = none) ∧
    (∀ cwd, load_config cwd FileState.corrupt =
      (defaultConfig cwd, some "Config corrupted — using defaults.")) := by
  constructor
  · intro cwd cfg hkeys hnd
    refine ⟨?_, rfl⟩
    intro k
    show dlookup k (dictUpdate (defaultConfig cwd) cfg) = dlookup k cfg
    rw [dlookup_dictUpdate cfg (defaultConfig cwd) k hnd]
    cases hv : dlookup k cfg with
    | some v => rfl
    | none =>
      rw [Option.none_or]
      by_cases hk : k ∈ defaultKeys
      · exact absurd (hkeys k hk) (by unfold hasKey; rw [hv]; exact Bool.false_ne_true)
      · exact dlookup_defaultConfig_of_not_mem cwd k hk
  · intro cwd
    rfl

/-- Witness for C3 at a concrete record with all five keys plus the UI's
`date` key. -/
theorem config_round_trip_witness :
    dlookup "api_key" (load_config "/home/u" (save_config cfg0)).1 = dlookup "api_key" cfg0 ∧
    load_config "/home/u" FileState.corrupt =
      (defaultConfig "/home/u", some "Config corrupted — using defaults.") :=
  ⟨(config_round_trip.1 "/home/u" cfg0 (by decide) (by decide)).1 "api_key",
   config_round_trip.2 "/home/u"⟩

/-! ## C10: defaults always present, file values override key-wise, unknown
keys retained -/

/-- C10 (implicit): `load_config` always returns a record containing all five
default keys; when the file parses, each key present in the file overrides the
default and unknown keys are retained, while keys absent from the file keep
their default value; an absent or corrupted file yields exactly the defaults. -/
theorem load_config_defaults_merge (cwd : String) (file : FileState) :
    (∀ k ∈ defaultKeys, hasKey (load_config cwd file).1 k) ∧
    (∀ d, file = FileState.parsed d → keysNodup d →
      (∀ k v, dlookup k d = some v → dlookup k (load_config cwd file).1 = some v) ∧
      (∀ k, dlookup k d = none →
        dlookup k (load_config cwd file).1 = dlookup k (defaultConfig cwd))) ∧
    (file = FileState.absent ∨ file = FileState.corrupt →
      (load_config cwd file).1 = defaultConfig cwd) := by
  refine ⟨?_, ?_, ?_⟩
  · intro k hk
    cases file with
    | absent => exact hasKey_defaultConfig cwd k hk
    | corrupt => exact hasKey_defaultConfig cwd k hk
    | parsed d =>
      exact hasKey_dictUpdate d (defaultConfig cwd) k (hasKey_defaultConfig cwd k hk)
  · intro d hf hnd
    subst hf
    constructor
    · intro k v hv
      show dlookup k (dictUpdate (defaultConfig cwd) d) = some v
      rw [dlookup_dictUpdate d (defaultConfig cwd) k hnd, hv]
      rfl
    · intro k hv
      show dlookup k (dictUpdate (defaultConfig cwd) d) = dlookup k (defaultConfig cwd)
      rw [dlookup_dictUpdate d (defaultConfig cwd) k hnd, hv, Option.none_or]
  · rintro (rfl | rfl) <;> rfl

/-- Witness for C10 at a parsed file holding one known and one unknown key:
the known key overrides, the unknown key survives, an untouched key keeps its
default. -/
theorem load_config_defaults_merge_witness :
    dlookup "api_key" (load_config "/h" (FileState.parsed partialFile)).1 =
      some (JValue.jstr "secret") ∧
    dlookup "color_scheme" (load_config "/h" (FileState.parsed partialFile)).1 =
      some (JValue.jstr "dark") ∧
    dlookup "report_style" (load_config "/h" (FileState.parsed partialFile)).1 =
      dlookup "report_style" (defaultConfig "/h") :=
  ⟨((load_config_defaults_merge "/h" (FileState.parsed partialFile)).2.1
      partialFile rfl (by decide)).1 "api_key" (JValue.jstr "secret") rfl,
   ((load_config_defaults_merge "/h" (FileState.parsed partialFile)).2.1
      partialFile rfl (by decide)).1 "color_scheme" (JValue.jstr "dark") rfl,
   ((load_config_defaults_merge "/h" (FileState.parsed partialFile)).2.1
      partialFile rfl (by decide)).2 "report_style" rfl⟩

end DailyStatus


namespace DailyStatus

/-! ## String-splitting lemmas

`build_full_prompt` hinges on Python's `str.split`; these lemmas characterise
`splitFuel` on the inputs the prompt code produces. -/

theorem splitFuel_cons_of_take (sep : List Char) (f : Nat) (c : Char) (rest : List Char)
    (hsep : sep ≠ []) (htake : (c :: rest).take sep.length = sep) :
    splitFuel sep (f + 1) (c :: rest) =
      [] :: splitFuel sep f ((c :: rest).drop sep.length) := by
  show (if sep ≠ [] ∧ (c :: rest).take sep.length = sep
        then [] :: splitFuel sep f ((c :: rest).drop sep.length)
        else match splitFuel sep f rest with
          | [] => [[c]]
          | p :: ps => (c :: p) :: ps) = _
  rw [if_pos ⟨hsep, htake⟩]

theorem splitFuel_cons_of_not_take (sep : List Char) (f : Nat) (c : Char) (rest : List Char)
    (h : ¬((c :: rest).take sep.length = sep)) :
    splitFuel sep (f + 1) (c :: rest) =
      match splitFuel sep f rest with
      | [] => [[c]]
      | p :: ps => (c :: p) :: ps := by
  show (if sep ≠ [] ∧ (c :: rest).take sep.length = sep
        then [] :: splitFuel sep f ((c :: rest).drop sep.length)
        else match splitFuel sep f rest with
          | [] => [[c]]
          | p :: ps => (c :: p) :: ps) = _
  rw [if_neg (fun hand => h hand.2)]

theorem splitFuel_ne_nil (sep : List Char) : ∀ (f : Nat) (s : List Char),
    splitFuel sep f s ≠ [] := by
  intro f
  induction f with
  | zero => intro s h; cases h
  | succ f ih =>
    intro s
    cases s with
    | nil => intro h; cases h
    | cons c rest =>
      by_cases htake : sep ≠ [] ∧ (c :: rest).take sep.length = sep
      · rw [splitFuel_cons_of_take sep f c rest htake.1 htake.2]
        intro h
        cases h
      · show (if sep ≠ [] ∧ (c :: rest).take sep.length = sep
            then [] :: splitFuel sep f ((c :: rest).drop sep.length)
            else match splitFuel sep f rest with
              | [] => [[c]]
              | p :: ps => (c :: p) :: ps) ≠ []
        rw [if_neg htake]
        cases hs : splitFuel sep f rest <;> simp

theorem splitFuel_irrel (sep : List Char) (hsep : sep ≠ []) :
    ∀ (f g : Nat) (s : List Char), s.length ≤ f → s.length ≤ g →
      splitFuel sep f s = splitFuel sep g s := by
  intro f
  induction f with
  | zero =>
    intro g s hf hg
    have hs : s = [] := List.eq_nil_of_length_eq_zero (Nat.le_zero.mp hf)
    subst hs
    cases g <;> rfl
  | succ f ih =>
    intro g s hf hg
    cases s with
    | nil => cases g <;> rfl
    | cons c rest =>
      cases g with
      | zero => simp at hg
      | succ g =>
        have hsl : 1 ≤ sep.length := by
          cases sep with
          | nil => exact absurd rfl hsep
          | cons x xs => simp
        simp only [List.length_cons] at hf hg
        by_cases htake : (c :: rest).take sep.length = sep
        · rw [splitFuel_cons_of_take sep f c rest hsep htake,
            splitFuel_cons_of_take sep g c rest hsep htake]
          have hlen : ((c :: rest).drop sep.length).length = rest.length + 1 - sep.length := by
            rw [List.length_drop]
            simp
          congr 1
          apply ih
          · rw [hlen]; omega
          · rw [hlen]; omega
        · rw [splitFuel_cons_of_not_take sep f c rest htake,
            splitFuel_cons_of_not_take sep g c rest htake,
            ih g rest (by omega) (by omega)]

theorem splitFuel_of_not_contains (sep : List Char) : ∀ (f : Nat) (s : List Char),
    containsL sep s = false → splitFuel sep f s = [s] := by
  intro f
  induction f with
  | zero => intro s _; rfl
  | succ f ih =>
    intro s hc
    cases s with
    | nil => rfl
    | cons c rest =>
      unfold containsL at hc
      rw [Bool.or_eq_false_iff] at hc
      have htake : ¬((c :: rest).take sep.length = sep) := by
        intro h
        rw [decide_eq_true h] at hc
        simp at hc
      rw [splitFuel_cons_of_not_take sep f c rest htake, ih rest hc.2]

theorem splitL_of_not_contains (sep s : List Char) (h : containsL sep s = false) :
    splitL sep s = [s] :=
  splitFuel_of_not_contains sep s.length s h

theorem take_append_ne_sep (sep a b : List Char) (ha : a ≠ [])
    (hnb : ∀ k, 0 < k → k < sep.length → sep.take k ≠ sep.drop (sep.length - k))
    (hca : containsL sep a = false) :
    ¬((a ++ sep ++ b).take sep.length = sep) := by
  intro h
  have halen : 0 < a.length := by
    cases a with
    | nil => exact absurd rfl ha
    | cons x xs => simp
  by_cases h1 : sep.length ≤ a.length
  · rw [List.append_assoc, List.take_append_of_le_length h1] at h
    cases a with
    | nil => exact absurd rfl ha
    | cons c rest =>
      unfold containsL at hca
      rw [Bool.or_eq_false_iff] at hca
      rw [decide_eq_true h] at hca
      simp at hca
  · push_neg at h1
    rw [List.append_assoc, List.take_append_eq_append_take,
      List.take_of_length_le (Nat.le_of_lt h1),
      List.take_append_of_le_length (by omega : sep.length - a.length ≤ sep.length)] at h
    have hdrop := congrArg (List.drop a.length) h
    rw [List.drop_left] at hdrop
    refine hnb (sep.length - a.length) (by omega) (by omega) ?_
    rw [show sep.length - (sep.length - a.length) = a.length from by omega]
    exact hdrop

theorem splitL_append (sep : List Char) (hsep : sep ≠ [])
    (hnb : ∀ k, 0 < k → k < sep.length → sep.take k ≠ sep.drop (sep.length - k)) :
    ∀ (a b : List Char), containsL sep a = false →
      splitL sep (a ++ sep ++ b) = a :: splitL sep b := by
  intro a
  induction a with
  | nil =>
    intro b _
    cases sep with
    | nil => exact absurd rfl hsep
    | cons c sep' =>
      show splitL (c :: sep') ((c :: sep') ++ b) = [] :: splitL (c :: sep') b
      unfold splitL
      rw [show (c :: sep') ++ b = c :: (sep' ++ b) from rfl]
      rw [show (c :: (sep' ++ b)).length = (sep' ++ b).length + 1 from rfl]
      rw [splitFuel_cons_of_take (c :: sep') ((sep' ++ b).length) c (sep' ++ b) hsep
        (by
          rw [show c :: (sep' ++ b) = (c :: sep') ++ b from rfl]
          exact List.take_left (c :: sep') b)]
      congr 1
      rw [show c :: (sep' ++ b) = (c :: sep') ++ b from rfl, List.drop_left]
      exact splitFuel_irrel (c :: sep') hsep (sep' ++ b).length b.length b
        (by simp) (Nat.le_refl _)
  | cons x a' ih =>
    intro b hca
    have hca' : containsL sep a' = false ∧
        ¬(((x :: a') ++ sep ++ b).take sep.length = sep) := by
      unfold containsL at hca
      rw [Bool.or_eq_false_iff] at hca
      exact ⟨hca.2, take_append_ne_sep sep (x :: a') b (by simp) hnb
        (by unfold containsL; rw [Bool.or_eq_false_iff]; exact hca)⟩
    show splitL sep ((x :: a') ++ sep ++ b) = (x :: a') :: splitL sep b
    unfold splitL
    rw [show (x :: a') ++ sep ++ b = x :: (a' ++ sep ++ b) from by simp] at hca' ⊢
    rw [show (x :: (a' ++ sep ++ b)).length = (a' ++ sep ++ b).length + 1 from rfl]
    rw [splitFuel_cons_of_not_take sep ((a' ++ sep ++ b).length) x (a' ++ sep ++ b) hca'.2]
    have hih : splitFuel sep (a' ++ sep ++ b).length (a' ++ sep ++ b) = a' :: splitL sep b :=
      ih b hca'.1
    rw [hih]
    rfl

/-! ## Substring-containment lemmas -/

theorem containsL_head_mem (c : Char) (S' : List Char) : ∀ (l : List Char),
    containsL (c :: S') l = true → c ∈ l := by
  intro l
  induction l with
  | nil => intro h; simp [containsL] at h
  | cons x rest ih =>
    intro h
    unfold containsL at h
    rw [Bool.or_eq_true] at h
    rcases h with h | h
    · rw [decide_eq_true_eq, List.length_cons, List.take_succ_cons] at h
      have hx : x = c := (List.cons.injEq _ _ _ _ ▸ h).1
      exact hx ▸ List.mem_cons_self x rest
    · exact List.mem_cons_of_mem x (ih h)

theorem containsL_nil_sub (l : List Char) : containsL [] l = true := by
  cases l with
  | nil => rfl
  | cons c rest => simp [containsL]

theorem containsL_append_self (sep : List Char) : ∀ (a b : List Char),
    containsL sep (a ++ sep ++ b) = true := by
  intro a
  induction a with
  | nil =>
    intro b
    cases sep with
    | nil => exact containsL_nil_sub b
    | cons c s' =>
      show containsL (c :: s') ((c :: s') ++ b) = true
      rw [show (c :: s') ++ b = c :: (s' ++ b) from rfl]
      unfold containsL
      rw [Bool.or_eq_true, decide_eq_true_eq]
      exact Or.inl (by
        rw [show c :: (s' ++ b) = (c :: s') ++ b from rfl]
        exact List.take_left (c :: s') b)
  | cons x a' ih =>
    intro b
    rw [show (x :: a') ++ sep ++ b = x :: (a' ++ sep ++ b) from by simp]
    unfold containsL
    rw [ih b, Bool.or_true]

theorem exists_decomp_of_containsL (sep : List Char) : ∀ (l : List Char),
    containsL sep l = true → ∃ la lb, l = la ++ sep ++ lb := by
  intro l
  induction l with
  | nil =>
    intro h
    simp [containsL] at h
    exact ⟨[], [], by simp [h]⟩
  | cons c rest ih =>
    intro h
    unfold containsL at h
    rw [Bool.or_eq_true] at h
    rcases h with h | h
    · rw [decide_eq_true_eq] at h
      refine ⟨[], (c :: rest).drop sep.length, ?_⟩
      rw [List.nil_append]
      conv_lhs => rw [← List.take_append_drop sep.length (c :: rest)]
      rw [h]
    · obtain ⟨la, lb, hrest⟩ := ih h
      exact ⟨c :: la, lb, by rw [hrest]; simp⟩

theorem Occurs_iff_containsL (sub s : String) :
    Occurs sub s ↔ containsL sub.data s.data = true := by
  constructor
  · rintro ⟨x, y, rfl⟩
    rw [String.data_append, String.data_append]
    exact containsL_append_self sub.data x.data y.data
  · intro h
    obtain ⟨la, lb, hd⟩ := exists_decomp_of_containsL sub.data s.data h
    refine ⟨String.mk la, String.mk lb, ?_⟩
    rw [show (String.mk la ++ sub ++ String.mk lb) = String.mk (la ++ sub.data ++ lb) from rfl,
      ← hd]

/-! ## Digit and border facts for the header strings -/

theorem noBorderB_spec (sep : List Char) (h : noBorderB sep = true) :
    ∀ k, 0 < k → k < sep.length → sep.take k ≠ sep.drop (sep.length - k) := by
  intro k hk0 hklen heq
  unfold noBorderB at h
  rw [List.all_eq_true] at h
  have h2 := h k (List.mem_range.mpr hklen)
  rw [Bool.or_eq_true, decide_eq_true_eq, Bool.not_eq_true', decide_eq_false_iff_not] at h2
  rcases h2 with h2 | h2
  · omega
  · exact h2 heq

theorem digitChar_ne_U (m : Nat) : digitChar m ≠ 'U' := by
  unfold digitChar
  split <;> decide

theorem mem_natDigitsAux_digit : ∀ (f n : Nat) (c : Char),
    c ∈ natDigitsAux f n → ∃ m, c = digitChar m := by
  intro f
  induction f with
  | zero => intro n c h; cases h
  | succ f ih =>
    intro n c h
    unfold natDigitsAux at h
    by_cases hn : n < 10
    · rw [if_pos hn] at h
      exact ⟨n % 10, List.mem_singleton.mp h⟩
    · rw [if_neg hn, List.mem_append] at h
      rcases h with h | h
      · exact ih (n / 10) c h
      · exact ⟨n % 10, List.mem_singleton.mp h⟩

theorem U_not_mem_natRepr (n : Nat) : 'U' ∉ (natRepr n).data := by
  intro h
  obtain ⟨m, hm⟩ := mem_natDigitsAux_digit (n + 1) n 'U' h
  exact digitChar_ne_U m hm.symm

theorem not_mem_append_chars {c : Char} {la lb : List Char} (ha : c ∉ la) (hb : c ∉ lb) :
    c ∉ la ++ lb := by
  intro h
  rcases List.mem_append.mp h with h | h
  · exact ha h
  · exact hb h

theorem U_not_mem_pad2 (n : Nat) : 'U' ∉ (pad2 n).data := by
  unfold pad2
  by_cases hn : n < 10
  · rw [if_pos hn, String.data_append]
    exact not_mem_append_chars (by decide) (U_not_mem_natRepr n)
  · rw [if_neg hn]
    exact U_not_mem_natRepr n

theorem U_not_mem_strftime_dmY (d : Date) : 'U' ∉ (strftime_dmY d).data := by
  unfold strftime_dmY
  rw [String.data_append, String.data_append, String.data_append, String.data_append]
  exact not_mem_append_chars (not_mem_append_chars (not_mem_append_chars
    (not_mem_append_chars (U_not_mem_pad2 d.day) (by decide)) (U_not_mem_pad2 d.month))
    (by decide)) (U_not_mem_natRepr d.year)

theorem U_not_mem_headerPost (d : Date) : 'U' ∉ (headerPost d).data := by
  unfold headerPost
  rw [String.data_append, String.data_append, String.data_append, String.data_append,
    String.data_append, String.data_append]
  exact not_mem_append_chars (not_mem_append_chars (not_mem_append_chars
    (not_mem_append_chars (not_mem_append_chars (not_mem_append_chars
      (by decide) (by decide)) (by decide)) (by decide)) (by decide))
    (U_not_mem_strftime_dmY d)) (by decide)

theorem sentence_map_data_ne_nil (style : Style) : (sentence_map style).data ≠ [] := by
  cases style <;> decide

theorem sentence_map_noBorder (style : Style) :
    ∀ k, 0 < k → k < (sentence_map style).data.length →
      (sentence_map style).data.take k ≠
        (sentence_map style).data.drop ((sentence_map style).data.length - k) := by
  cases style <;> exact noBorderB_spec _ (by decide)

theorem sentence_map_head_U (style : Style) :
    ∃ r, (sentence_map style).data = 'U' :: r := by
  cases style
  · exact ⟨"se 2–3 sentences.".data, by decide⟩
  · exact ⟨"se 4–5 sentences.".data, by decide⟩
  · exact ⟨"se 6–8 sentences.".data, by decide⟩

theorem sentence_map_not_in_headerPost (style : Style) (date : Date) :
    containsL (sentence_map style).data (headerPost date).data = false := by
  obtain ⟨r, hr⟩ := sentence_map_head_U style
  cases hcl : containsL (sentence_map style).data (headerPost date).data
  · rfl
  · exfalso
    apply U_not_mem_headerPost date
    rw [hr] at hcl
    exact containsL_head_mem 'U' r (headerPost date).data hcl

/-! ## Decomposing the header around the style directive -/

theorem build_template_decomp (project : String) (date : Date) (style : Style) :
    build_template project date style =
      headerPre project date style ++ sentence_map style ++ headerPost date := by
  unfold build_template headerPre headerPost
  simp only [String.append_assoc]

theorem build_template_data (project : String) (date : Date) (style : Style) :
    (build_template project date style).data =
      (headerPre project date style).data ++ (sentence_map style).data ++
        (headerPost date).data := by
  rw [build_template_decomp project date style, String.data_append, String.data_append]

theorem pysplit_header (project : String) (date : Date) (style : Style)
    (hpre : containsL (sentence_map style).data (headerPre project date style).data = false) :
    pysplit (build_template project date style) (sentence_map style) =
      [headerPre project date style, headerPost date] := by
  show (splitL (sentence_map style).data (build_template project date style).data).map
      String.mk = _
  rw [build_template_data project date style,
    splitL_append (sentence_map style).data (sentence_map_data_ne_nil style)
      (sentence_map_noBorder style) (headerPre project date style).data
      (headerPost date).data hpre,
    splitL_of_not_contains (sentence_map style).data (headerPost date).data
      (sentence_map_not_in_headerPost style date)]
  rfl

theorem build_full_prompt_eq (diffs : List String) (project : String) (date : Date)
    (style : Style)
    (hpre : containsL (sentence_map style).data (headerPre project date style).data = false) :
    build_full_prompt diffs project date style =
      headerPre project date style ++
        (if diffs.isEmpty then "No code changes today." else pyJoin "\n\n" diffs) ++
        "\n\n" ++ sentence_map style ++ headerPost date := by
  show (pysplit (build_template project date style) (sentence_map style)).getD 0 "" ++
      (if diffs.isEmpty then "No code changes today." else pyJoin "\n\n" diffs) ++ "\n\n" ++
      sentence_map style ++
      (pysplit (build_template project date style) (sentence_map style)).getD 1 "" = _
  rw [pysplit_header project date style hpre]
  rfl

/-! ## C4: the full prompt as a splice of the header -/

/-- C4, amended: provided the style's length directive does not occur in the
header text preceding it (in particular, whenever the project name does not
reintroduce the directive), `build_full_prompt` equals the header produced by
`build_template` with the diffs block (or the no-changes placeholder) spliced
in at the position of the style's length directive, with all header text
before the directive and all header text after the directive preserved
unchanged — and it agrees with the spec-modelled `splice_spec`. -/
theorem build_full_prompt_splice (diffs : List String) (project : String) (date : Date)
    (style : Style)
    (hpre : containsL (sentence_map style).data (headerPre project date style).data = false) :
    build_template project date style =
      headerPre project date style ++ sentence_map style ++ headerPost date ∧
    build_full_prompt diffs project date style =
      headerPre project date style ++
        (if diffs.isEmpty then "No code changes today." else pyJoin "\n\n" diffs) ++
        "\n\n" ++ sentence_map style ++ headerPost date ∧
    build_full_prompt diffs project date style = splice_spec diffs project date style := by
  refine ⟨build_template_decomp project date style,
    build_full_prompt_eq diffs project date style hpre, ?_⟩
  show _ = (pysplit (build_template project date style) (sentence_map style)).getD 0 "" ++
      (if diffs.isEmpty then "No code changes today." else pyJoin "\n\n" diffs) ++ "\n\n" ++
      sentence_map style ++
      pyJoin (sentence_map style)
        ((pysplit (build_template project date style) (sentence_map style)).drop 1)
  rw [pysplit_header project date style hpre, build_full_prompt_eq diffs project date style hpre]
  rfl

set_option maxRecDepth 20000 in
/-- Witness for C4 at a concrete project, date, style and diff list. -/
theorem build_full_prompt_splice_witness :
    build_template "DailyStatus" d0 Style.short =
      headerPre "DailyStatus" d0 Style.short ++ sentence_map Style.short ++ headerPost d0 ∧
    build_full_prompt ["diff A"] "DailyStatus" d0 Style.short =
      headerPre "DailyStatus" d0 Style.short ++
        (if (["diff A"] : List String).isEmpty then "No code changes today."
         else pyJoin "\n\n" ["diff A"]) ++
        "\n\n" ++ sentence_map Style.short ++ headerPost d0 ∧
    build_full_prompt ["diff A"] "DailyStatus" d0 Style.short =
      splice_spec ["diff A"] "DailyStatus" d0 Style.short :=
  build_full_prompt_splice ["diff A"] "DailyStatus" d0 Style.short (by decide)

set_option maxRecDepth 100000 in
/-- Counterexample to C4 as stated: when the project name is itself the
directive, the header contains the directive twice, `parts[2]` is dropped, and
the result is not the claim's splice (which preserves all header text after
the directive). -/
theorem build_full_prompt_splice_counterexample :
    build_full_prompt [] advProject d0 Style.short ≠
      splice_spec [] advProject d0 Style.short := by
  decide

/-! ## C5: what the full prompt contains -/

/-- C5, amended: provided the style's length directive does not occur in the
header text preceding it (in particular, whenever the project name does not
reintroduce the directive), the full prompt contains the project name, the
formatted dates ("%B %d, %Y" and "%d.%m.%Y"), and the sentence-count directive
of the style (short→2-3 sentences, medium→4-5, long→6-8); and the diffs block
it embeds is the supplied diffs joined by a blank line when the list is
non-empty, and the literal no-changes placeholder when it is empty. -/
theorem build_full_prompt_contents (diffs : List String) (project : String) (date : Date)
    (style : Style)
    (hpre : containsL (sentence_map style).data (headerPre project date style).data = false) :
    Occurs project (build_full_prompt diffs project date style) ∧
    Occurs (strftime_BdY date) (build_full_prompt diffs project date style) ∧
    Occurs (strftime_dmY date) (build_full_prompt diffs project date style) ∧
    Occurs (sentence_map style) (build_full_prompt diffs project date style) ∧
    Occurs (if diffs.isEmpty then "No code changes today." else pyJoin "\n\n" diffs)
      (build_full_prompt diffs project date style) ∧
    (sentence_map Style.short = "Use 2–3 sentences." ∧
     sentence_map Style.medium = "Use 4–5 sentences." ∧
     sentence_map Style.long = "Use 6–8 sentences.") := by
  have hfull := build_full_prompt_eq diffs project date style hpre
  refine ⟨?_, ?_, ?_, ?_, ?_, rfl, rfl, rfl⟩
  · refine ⟨"You are an assistant that writes " ++ styleName style ++
      " daily stand-up updates for software engineers.\n" ++ "Project: ",
      "\n" ++ "Date: " ++ strftime_BdY date ++ "\n\n" ++
      "Here are the detailed code diffs for today:\n\n" ++
      (if diffs.isEmpty then "No code changes today." else pyJoin "\n\n" diffs) ++
      "\n\n" ++ sentence_map style ++ headerPost date, ?_⟩
    rw [hfull]
    unfold headerPre
    simp only [String.append_assoc]
  · refine ⟨"You are an assistant that writes " ++ styleName style ++
      " daily stand-up updates for software engineers.\n" ++ "Project: " ++ project ++
      "\n" ++ "Date: ",
      "\n\n" ++ "Here are the detailed code diffs for today:\n\n" ++
      (if diffs.isEmpty then "No code changes today." else pyJoin "\n\n" diffs) ++
      "\n\n" ++ sentence_map style ++ headerPost date, ?_⟩
    rw [hfull]
    unfold headerPre
    simp only [String.append_assoc]
  · refine ⟨headerPre project date style ++
      (if diffs.isEmpty then "No code changes today." else pyJoin "\n\n" diffs) ++
      "\n\n" ++ sentence_map style ++ "\n\n" ++
      "Generate a status in the exact format of the examples below:\n\n" ++
      example_block ++ "\n\n" ++ "Now write only the entry for ", ":", ?_⟩
    rw [hfull]
    unfold headerPost
    simp only [String.append_assoc]
  · refine ⟨headerPre project date style ++
      (if diffs.isEmpty then "No code changes today." else pyJoin "\n\n" diffs) ++ "\n\n",
      headerPost date, ?_⟩
    rw [hfull]
  · refine ⟨headerPre project date style,
      "\n\n" ++ sentence_map style ++ headerPost date, ?_⟩
    rw [hfull]
    simp only [String.append_assoc]

set_option maxRecDepth 20000 in
/-- Witness for C5 at a concrete project, date, style and empty diff list. -/
theorem build_full_prompt_contents_witness :
    Occurs "DailyStatus" (build_full_prompt [] "DailyStatus" d0 Style.medium) ∧
    Occurs (strftime_BdY d0) (build_full_prompt [] "DailyStatus" d0 Style.medium) ∧
    Occurs (strftime_dmY d0) (build_full_prompt [] "DailyStatus" d0 Style.medium) ∧
    Occurs (sentence_map Style.medium) (build_full_prompt [] "DailyStatus" d0 Style.medium) ∧
    Occurs (if ([] : List String).isEmpty then "No code changes today." else pyJoin "\n\n" [])
      (build_full_prompt [] "DailyStatus" d0 Style.medium) ∧
    (sentence_map Style.short = "Use 2–3 sentences." ∧
     sentence_map Style.medium = "Use 4–5 sentences." ∧
     sentence_map Style.long = "Use 6–8 sentences.") :=
  build_full_prompt_contents [] "DailyStatus" d0 Style.medium (by decide)

set_option maxRecDepth 100000 in
/-- Counterexample to C5 as stated: when the project name contains the
directive with text on both sides, the splice cuts the header apart inside the
project name and the full prompt no longer contains the project name. -/
theorem build_full_prompt_contents_counterexample :
    ¬ Occurs advProject2 (build_full_prompt [] advProject2 d0 Style.short) := by
  rw [Occurs_iff_containsL]
  decide

end DailyStatus
